import Mathlib

/-!
Shallow embedding of `autogpt/agent_manager.py` (class `AgentManager`) from the
Godmode-GPT repository, together with theorems settling the specification
claims about it.

Python dicts keyed by `int | str` are modelled as association lists over a
`PyKey` sum type; Python exceptions are modelled by an explicit error type
threaded through `Except`; the mutable registry is modelled by explicit state
passing, with in-place list mutation (the history list aliased between the
registry tuple and the local `messages` variable) reflected by writing the
updated history back into the registry at every exit point of `message_agent`.
-/

namespace Godmode

/-- A role-tagged chat message, modelling the `{"role": ..., "content": ...}`
dicts used throughout `agent_manager.py`. -/
structure Message where
  role : String
  content : String
deriving DecidableEq, Repr

/-- A Python `int | str` dictionary key, as in
`agents: dict[Union[int, str], ...]`. -/
inductive PyKey where
  | int (n : Int)
  | str (s : String)
deriving DecidableEq, Repr

/-- The Python exceptions that the embedded code can raise. -/
inductive PyErr where
  | valueError
  | unboundLocalError
  | backendError (msg : String)
deriving DecidableEq, Repr

/-- Parse a non-empty all-digit character list as a natural number. -/
def parseDigits (cs : List Char) : Option Nat :=
  if cs.isEmpty then none
  else if cs.all Char.isDigit then
    some (cs.foldl (fun n c => 10 * n + (c.toNat - 48)) 0)
  else none

/-- The core of Python `int()` on a string: an optional sign followed by one
or more decimal digits; anything else is a `ValueError`. -/
def pyParseInt (s : String) : Option Int :=
  match s.data with
  | '-' :: cs => (parseDigits cs).map (fun n => -(n : Int))
  | '+' :: cs => (parseDigits cs).map (fun n => (n : Int))
  | cs => (parseDigits cs).map (fun n => (n : Int))

/-- Python `int(key)` on an `int | str` value: identity on ints, integer
parsing on strings, `ValueError` when the string is not an integer literal. -/
def pyInt (k : PyKey) : Except PyErr Int :=
  match k with
  | .int n => .ok n
  | .str s =>
    match pyParseInt s with
    | some n => .ok n
    | none => .error .valueError

/-- Python `str(key)` on an `int | str` value. -/
def pyStr (k : PyKey) : String :=
  match k with
  | .int n => toString n
  | .str s => s

/-- One agent record: the `(task, full_message_history, model)` tuple stored
in `self.agents`. -/
structure Agent where
  task : String
  history : List Message
  model : String
deriving DecidableEq, Repr

/-- `d[k]` on a Python dict modelled as an association list. -/
def dictGet {α : Type} (d : List (PyKey × α)) (k : PyKey) : Option α :=
  match d with
  | [] => none
  | (k', a) :: rest => if k' = k then some a else dictGet rest k

/-- `k in d` on a Python dict. -/
def dictContains {α : Type} (d : List (PyKey × α)) (k : PyKey) : Bool :=
  (dictGet d k).isSome

/-- `d[k] = a` on a Python dict: replaces the entry in place when the key is
present, appends it otherwise (Python dicts preserve insertion order). -/
def dictSet {α : Type} (d : List (PyKey × α)) (k : PyKey) (a : α) :
    List (PyKey × α) :=
  match d with
  | [] => [(k, a)]
  | (k', a') :: rest =>
    if k' = k then (k, a) :: rest else (k', a') :: dictSet rest k a

/-- `del d[k]` on a Python dict (the key is present in every call site that
reaches this, and association lists built by `dictSet` hold each key once). -/
def dictDel {α : Type} (d : List (PyKey × α)) (k : PyKey) : List (PyKey × α) :=
  d.filter (fun p => decide (p.1 ≠ k))

/-- One plugin: the three capability predicates and three handlers of the
hook protocol.  A `pre_instruction` result that is the empty list, and an
`on_instruction` result that is the empty string, model a falsy Python
return value (no contribution). -/
structure Plugin where
  can_handle_pre_instruction : Bool
  pre_instruction : List Message → List Message
  can_handle_on_instruction : Bool
  on_instruction : List Message → String
  can_handle_post_instruction : Bool
  post_instruction : String → String

/-- The external completion backend,
`create_chat_completion(model=..., messages=..., cfg=...)`: it returns a
reply string or raises. -/
def Backend : Type := String → List Message → Except PyErr String

/-- The pre-instruction loop shared by `create_agent` and `message_agent`:
each participating plugin sees the history as extended by its predecessors
and its (truthy) returned messages are appended. -/
def preInstructionPhase (plugins : List Plugin) (messages : List Message) :
    List Message :=
  match plugins with
  | [] => messages
  | p :: ps =>
    let messages' :=
      if p.can_handle_pre_instruction then
        let pm := p.pre_instruction messages
        if pm.isEmpty then messages else messages ++ pm
      else messages
    preInstructionPhase ps messages'

/-- The on-instruction loop body: `i` is the index of the current plugin in
the full plugin list (`enumerate(self.cfg.plugins)`), `acc` the accumulated
`plugins_reply`.  A truthy (non-empty) result is appended to the accumulator
preceded by `"\n"` exactly when `i` is non-zero (`sep = "\n" if i else ""`). -/
def onInstructionAux (messages : List Message) :
    Nat → String → List Plugin → String
  | _, acc, [] => acc
  | i, acc, p :: ps =>
    let acc' :=
      if p.can_handle_on_instruction then
        let r := p.on_instruction messages
        if r = "" then acc else acc ++ (if i = 0 then "" else "\n") ++ r
      else acc
    onInstructionAux messages (i + 1) acc' ps

/-- The on-instruction phase, started at index `0` from the given seed
(`plugins_reply = ""` in `create_agent`, `plugins_reply = agent_reply` in
`message_agent`). -/
def onInstructionPhase (plugins : List Plugin) (messages : List Message)
    (seed : String) : String :=
  onInstructionAux messages 0 seed plugins

/-- The post-instruction loop: each participating plugin rewrites the reply,
left to right. -/
def postInstructionPhase (plugins : List Plugin) (reply : String) : String :=
  match plugins with
  | [] => reply
  | p :: ps =>
    postInstructionPhase ps
      (if p.can_handle_post_instruction then p.post_instruction reply else reply)

/-- The manager state: the key counter and the session registry
(`self.next_key`, `self.agents`). -/
structure AgentManager where
  next_key : Int
  agents : List (PyKey × Agent)
deriving DecidableEq, Repr

/-- `AgentManager.__init__(cfg, agents)`: the counter starts at
`len(agents.keys())`, and the registry is the dict passed in. -/
def AgentManager.init (agents : List (PyKey × Agent)) : AgentManager :=
  { next_key := (agents.length : Int), agents := agents }

/-- `AgentManager.create_agent(task, prompt, model)`.  The backend and the
plugin list stand for `create_chat_completion` and `self.cfg.plugins`; the
returned pair is the manager state after the call together with the normal
result or the propagated exception. -/
def AgentManager.create_agent (m : AgentManager) (plugins : List Plugin)
    (backend : Backend) (task prompt model : String) :
    AgentManager × Except PyErr (Int × String) :=
  let messages := preInstructionPhase plugins [{ role := "user", content := prompt }]
  match backend model messages with
  | .error e => (m, .error e)
  | .ok agent_reply =>
    let messages := messages ++ [{ role := "assistant", content := agent_reply }]
    let plugins_reply := onInstructionPhase plugins messages ""
    let messages :=
      if plugins_reply = "" then messages
      else messages ++ [{ role := "assistant", content := plugins_reply }]
    let key := m.next_key
    ({ next_key := m.next_key + 1,
       agents := dictSet m.agents (PyKey.int key)
         { task := task, history := messages, model := model } },
     .ok (key, postInstructionPhase plugins agent_reply))

/-- The `if key in self.agents / elif int(key) in self.agents /
elif str(key) in self.agents` chain of `message_agent`: returns the first
key form present together with its record; raises `ValueError` when the
first branch fails and `int(key)` does; falls through with every local
unbound — surfacing as `UnboundLocalError` at the following
`messages.append` — when no form is present. -/
def resolveAgent (agents : List (PyKey × Agent)) (key : PyKey) :
    Except PyErr (PyKey × Agent) :=
  match dictGet agents key with
  | some a => .ok (key, a)
  | none =>
    match pyInt key with
    | .error e => .error e
    | .ok n =>
      match dictGet agents (PyKey.int n) with
      | some a => .ok (PyKey.int n, a)
      | none =>
        match dictGet agents (PyKey.str (pyStr key)) with
        | some a => .ok (PyKey.str (pyStr key), a)
        | none => .error .unboundLocalError

/-- `AgentManager.message_agent(key, message)`.  The history list is aliased
between the registry tuple and the local `messages`, so every append is
visible in the registry: the state returned on the error path already
contains the user message and the pre-instruction messages. -/
def AgentManager.message_agent (m : AgentManager) (plugins : List Plugin)
    (backend : Backend) (key : PyKey) (message : String) :
    AgentManager × Except PyErr String :=
  match resolveAgent m.agents key with
  | .error e => (m, .error e)
  | .ok (k, agent) =>
    let msgs :=
      preInstructionPhase plugins
        (agent.history ++ [{ role := "user", content := message }])
    match backend agent.model msgs with
    | .error e =>
      ({ next_key := m.next_key,
         agents := dictSet m.agents k { agent with history := msgs } },
       .error e)
    | .ok agent_reply =>
      let msgs := msgs ++ [{ role := "assistant", content := agent_reply }]
      let plugins_reply := onInstructionPhase plugins msgs agent_reply
      let msgs :=
        if plugins_reply = "" then msgs
        else msgs ++ [{ role := "assistant", content := plugins_reply }]
      ({ next_key := m.next_key,
         agents := dictSet m.agents k { agent with history := msgs } },
       .ok (postInstructionPhase plugins agent_reply))

/-- `AgentManager.list_agents()`. -/
def AgentManager.list_agents (m : AgentManager) : List (PyKey × String) :=
  m.agents.map (fun p => (p.1, p.2.task))

/-- `AgentManager.delete_agent(key)`: `del self.agents[int(key)]` with only
`KeyError` caught, so the `ValueError` of a failed `int(key)` propagates. -/
def AgentManager.delete_agent (m : AgentManager) (key : PyKey) :
    AgentManager × Except PyErr Bool :=
  match pyInt key with
  | .error e => (m, .error e)
  | .ok n =>
    if dictContains m.agents (PyKey.int n) then
      ({ next_key := m.next_key, agents := dictDel m.agents (PyKey.int n) },
       .ok true)
    else (m, .ok false)

/-! ### Concrete stubs used by witnesses and counterexamples -/

/-- A backend stub that always replies `r`. -/
def constBackend (r : String) : Backend := fun _ _ => Except.ok r

/-- A backend stub that always fails. -/
def errBackend (msg : String) : Backend :=
  fun _ _ => Except.error (PyErr.backendError msg)

/-- A plugin that participates in no phase. -/
def skipPlugin : Plugin where
  can_handle_pre_instruction := false
  pre_instruction := fun _ => []
  can_handle_on_instruction := false
  on_instruction := fun _ => ""
  can_handle_post_instruction := false
  post_instruction := id

/-- A plugin participating only in the on-instruction phase, always
contributing `s`. -/
def onPlugin (s : String) : Plugin :=
  { skipPlugin with
    can_handle_on_instruction := true
    on_instruction := fun _ => s }

/-- A fixed agent record for concrete scenarios. -/
def sampleAgent : Agent := { task := "original", history := [], model := "m0" }

/-! ### Dictionary lemmas -/

theorem dictGet_dictSet_self {α : Type} (d : List (PyKey × α)) (k : PyKey)
    (a : α) : dictGet (dictSet d k a) k = some a := by
  induction d with
  | nil => simp [dictSet, dictGet]
  | cons hd tl ih =>
    obtain ⟨k', a'⟩ := hd
    by_cases h : k' = k
    · simp [dictSet, dictGet, h]
    · simp [dictSet, dictGet, h, ih]

theorem dictGet_dictSet_ne {α : Type} (d : List (PyKey × α)) (k k' : PyKey)
    (a : α) (h : k' ≠ k) : dictGet (dictSet d k a) k' = dictGet d k' := by
  have h' : ¬(k = k') := fun hk => h hk.symm
  induction d with
  | nil => simp [dictSet, dictGet, h']
  | cons hd tl ih =>
    obtain ⟨k₀, a₀⟩ := hd
    by_cases hk : k₀ = k
    · subst hk
      simp [dictSet, dictGet, h']
    · simp only [dictSet, if_neg hk, dictGet]
      by_cases hk' : k₀ = k'
      · simp [hk']
      · simp [hk', ih]

theorem dictGet_dictDel_self {α : Type} (d : List (PyKey × α)) (k : PyKey) :
    dictGet (dictDel d k) k = none := by
  induction d with
  | nil => simp [dictDel, dictGet]
  | cons hd tl ih =>
    obtain ⟨k', a'⟩ := hd
    by_cases h : k' = k
    · simpa [dictDel, List.filter, h] using ih
    · simpa [dictDel, List.filter, h, dictGet] using ih

/-! ### Phase lemmas -/

/-- The pre-instruction phase only ever appends: its result extends its
input. -/
theorem preInstructionPhase_extends (plugins : List Plugin)
    (messages : List Message) :
    ∃ extra, preInstructionPhase plugins messages = messages ++ extra := by
  induction plugins generalizing messages with
  | nil => exact ⟨[], by simp [preInstructionPhase]⟩
  | cons p ps ih =>
    by_cases hc : p.can_handle_pre_instruction
    · by_cases he : (p.pre_instruction messages).isEmpty
      · obtain ⟨e, hrec⟩ := ih messages
        exact ⟨e, by simp [preInstructionPhase, hc, he, hrec]⟩
      · obtain ⟨e, hrec⟩ := ih (messages ++ p.pre_instruction messages)
        exact ⟨p.pre_instruction messages ++ e,
          by simp [preInstructionPhase, hc, he, hrec]⟩
    · obtain ⟨e, hrec⟩ := ih messages
      exact ⟨e, by simp [preInstructionPhase, hc, hrec]⟩

/-- Plugins that do not advertise the on-instruction phase leave the
accumulated `plugins_reply` untouched. -/
theorem onInstructionAux_skip (messages : List Message) (ps : List Plugin)
    (hskip : ∀ p ∈ ps, p.can_handle_on_instruction = false) :
    ∀ (i : Nat) (acc : String), onInstructionAux messages i acc ps = acc := by
  induction ps with
  | nil => intro i acc; rfl
  | cons p ps ih =>
    intro i acc
    have hp := hskip p (List.mem_cons_self p ps)
    have hps : ∀ q ∈ ps, q.can_handle_on_instruction = false :=
      fun q hq => hskip q (List.mem_cons_of_mem p hq)
    simp [onInstructionAux, hp, ih hps]

/-! ### Characterizations of the operations -/

/-- `message_agent` on a resolvable key and a succeeding backend. -/
theorem message_agent_ok (m : AgentManager) (plugins : List Plugin)
    (backend : Backend) (key : PyKey) (message : String) (ck : PyKey)
    (a : Agent) (reply : String)
    (hres : resolveAgent m.agents key = Except.ok (ck, a))
    (hbk : backend a.model (preInstructionPhase plugins
      (a.history ++ [⟨"user", message⟩])) = Except.ok reply) :
    m.message_agent plugins backend key message =
      (let base := preInstructionPhase plugins (a.history ++ [⟨"user", message⟩]) ++ [⟨"assistant", reply⟩]
       let agg := onInstructionPhase plugins base reply
       ({ next_key := m.next_key,
          agents := dictSet m.agents ck { a with history := if agg = "" then base else base ++ [⟨"assistant", agg⟩] } },
        Except.ok (postInstructionPhase plugins reply))) := by
  simp only [AgentManager.message_agent, hres, hbk]

/-- `message_agent` on a resolvable key and a failing backend: the error
propagates, and the user message plus the pre-instruction messages stay in
the registry (the history list is aliased). -/
theorem message_agent_err (m : AgentManager) (plugins : List Plugin)
    (backend : Backend) (key : PyKey) (message : String) (ck : PyKey)
    (a : Agent) (e : PyErr)
    (hres : resolveAgent m.agents key = Except.ok (ck, a))
    (hbk : backend a.model (preInstructionPhase plugins
      (a.history ++ [⟨"user", message⟩])) = Except.error e) :
    m.message_agent plugins backend key message =
      ({ next_key := m.next_key,
         agents := dictSet m.agents ck { a with history := preInstructionPhase plugins (a.history ++ [⟨"user", message⟩]) } },
       Except.error e) := by
  simp only [AgentManager.message_agent, hres, hbk]

/-- `create_agent` on a succeeding backend. -/
theorem create_agent_ok (m : AgentManager) (plugins : List Plugin)
    (backend : Backend) (task prompt model reply : String)
    (hbk : backend model (preInstructionPhase plugins [⟨"user", prompt⟩]) = Except.ok reply) :
    m.create_agent plugins backend task prompt model =
      (let base := preInstructionPhase plugins [⟨"user", prompt⟩] ++ [⟨"assistant", reply⟩]
       let agg := onInstructionPhase plugins base ""
       ({ next_key := m.next_key + 1,
          agents := dictSet m.agents (PyKey.int m.next_key) { task := task, history := if agg = "" then base else base ++ [⟨"assistant", agg⟩], model := model } },
        Except.ok (m.next_key, postInstructionPhase plugins reply))) := by
  simp only [AgentManager.create_agent, hbk]

/-- `create_agent` on a failing backend leaves the state untouched. -/
theorem create_agent_err (m : AgentManager) (plugins : List Plugin)
    (backend : Backend) (task prompt model : String) (e : PyErr)
    (hbk : backend model (preInstructionPhase plugins [⟨"user", prompt⟩]) = Except.error e) :
    m.create_agent plugins backend task prompt model = (m, Except.error e) := by
  simp only [AgentManager.create_agent, hbk]

/-- `delete_agent` never changes the key counter. -/
theorem delete_agent_next_key (m : AgentManager) (key : PyKey) :
    ((m.delete_agent key).1).next_key = m.next_key := by
  unfold AgentManager.delete_agent
  cases pyInt key with
  | error e => rfl
  | ok n =>
    by_cases h : dictContains m.agents (PyKey.int n)
    · simp [h]
    · simp [h]

/-! ### Call sequences over one manager -/

/-- One externally triggered manager operation (the two that touch key
allocation). -/
inductive Op where
  | create (task prompt model : String)
  | delete (key : PyKey)

/-- Run a sequence of operations against one manager (with its configured
plugin list and backend), collecting the keys returned by the successful
`create_agent` calls, in order. -/
def runOps (plugins : List Plugin) (backend : Backend) :
    AgentManager → List Op → AgentManager × List Int
  | m, [] => (m, [])
  | m, Op.create t p md :: ops =>
    match m.create_agent plugins backend t p md with
    | (m', Except.ok (k, _)) =>
      ((runOps plugins backend m' ops).1, k :: (runOps plugins backend m' ops).2)
    | (m', Except.error _) => runOps plugins backend m' ops
  | m, Op.delete k :: ops => runOps plugins backend (m.delete_agent k).1 ops

/-- A successful `create_agent` returns the old counter as the key and bumps
the counter by one. -/
theorem create_agent_ok_inv (m m' : AgentManager) (plugins : List Plugin)
    (backend : Backend) (t p md : String) (k : Int) (r : String)
    (h : m.create_agent plugins backend t p md = (m', Except.ok (k, r))) :
    m'.next_key = m.next_key + 1 ∧ k = m.next_key := by
  cases hbk : backend md (preInstructionPhase plugins [⟨"user", p⟩]) with
  | error e =>
    rw [create_agent_err m plugins backend t p md e hbk] at h
    simp [Prod.ext_iff] at h
  | ok reply =>
    rw [create_agent_ok m plugins backend t p md reply hbk] at h
    simp only [Prod.ext_iff, Except.ok.injEq] at h
    obtain ⟨h1, h2, _⟩ := h
    subst h1
    exact ⟨rfl, h2.symm⟩

/-- A failing `create_agent` leaves the manager unchanged. -/
theorem create_agent_err_inv (m m' : AgentManager) (plugins : List Plugin)
    (backend : Backend) (t p md : String) (e : PyErr)
    (h : m.create_agent plugins backend t p md = (m', Except.error e)) :
    m' = m := by
  cases hbk : backend md (preInstructionPhase plugins [⟨"user", p⟩]) with
  | error e' =>
    rw [create_agent_err m plugins backend t p md e' hbk] at h
    exact (Prod.ext_iff.mp h).1.symm
  | ok reply =>
    rw [create_agent_ok m plugins backend t p md reply hbk] at h
    simp [Prod.ext_iff] at h

/-- Invariant behind key monotonicity: along any run, the key counter never
decreases, every issued key lies between the starting counter (inclusive)
and the final counter (exclusive), and the issued keys strictly increase. -/
theorem runOps_keys_invariant (plugins : List Plugin) (backend : Backend) :
    ∀ (ops : List Op) (m : AgentManager),
      m.next_key ≤ ((runOps plugins backend m ops).1).next_key
      ∧ (∀ k ∈ (runOps plugins backend m ops).2,
          m.next_key ≤ k ∧ k < ((runOps plugins backend m ops).1).next_key)
      ∧ ((runOps plugins backend m ops).2).Pairwise (· < ·) := by
  intro ops
  induction ops with
  | nil =>
    intro m
    refine ⟨le_refl _, ?_, ?_⟩
    · intro k hk; simp [runOps] at hk
    · simp [runOps]
  | cons op ops ih =>
    intro m
    cases op with
    | create t p md =>
      rcases hc : m.create_agent plugins backend t p md with ⟨m', res⟩
      cases res with
      | error e =>
        have hm : m' = m := create_agent_err_inv m m' plugins backend t p md e hc
        subst hm
        simpa [runOps, hc] using ih m'
      | ok kr =>
        rcases kr with ⟨k, r⟩
        obtain ⟨hnk, hk⟩ := create_agent_ok_inv m m' plugins backend t p md k r hc
        obtain ⟨ih₁, ih₂, ih₃⟩ := ih m'
        simp only [runOps, hc]
        refine ⟨by omega, ?_, ?_⟩
        · intro x hx
          rcases List.mem_cons.mp hx with hx | hx
          · subst hx
            exact ⟨by omega, by omega⟩
          · have := ih₂ x hx
            exact ⟨by omega, this.2⟩
        · refine List.Pairwise.cons ?_ ih₃
          intro x hx
          have := ih₂ x hx
          omega
    | delete k =>
      have hnk := delete_agent_next_key m k
      have := ih (m.delete_agent k).1
      simpa [runOps, hnk] using this

/-! ### Claim theorems -/

/-- Claim C1.  The claim says that a `send_message` whose key resolves under
none of the three strategies fails with `SessionNotFound` and that no
unrelated error reaches the caller.  The code defines no such exception: the
unguarded `if/elif/elif` chain falls through with every local unbound, so
the caller sees `UnboundLocalError` at the following `messages.append` — or
`ValueError` from `int(key)` when the key is a non-numeric string — caught,
logged and re-raised unchanged.  This theorem evaluates `message_agent` at
the two failing inputs. -/
theorem message_agent_unresolved_key_raises_unrelated_error :
    (AgentManager.init []).message_agent [] (constBackend "Hi") (PyKey.int 5) "q"
      = (AgentManager.init [], Except.error PyErr.unboundLocalError)
    ∧ (AgentManager.init []).message_agent [] (constBackend "Hi") (PyKey.str "abc") "q"
      = (AgentManager.init [], Except.error PyErr.valueError) :=
  ⟨rfl, rfl⟩

/-- Claim C4.  Starting from an empty registry, across any sequence of
`create_agent` and `delete_agent` calls the keys returned by the successful
creations are pairwise strictly increasing — so every issued key exceeds all
previously issued keys, deleted ones included, and no key is ever reissued —
and every issued key stays strictly below the final `next_key`. -/
theorem create_agent_keys_strictly_monotone (plugins : List Plugin)
    (backend : Backend) (ops : List Op) :
    ((runOps plugins backend (AgentManager.init []) ops).2).Pairwise (· < ·)
    ∧ ∀ k ∈ (runOps plugins backend (AgentManager.init []) ops).2,
        k < ((runOps plugins backend (AgentManager.init []) ops).1).next_key := by
  obtain ⟨-, h2, h3⟩ := runOps_keys_invariant plugins backend ops (AgentManager.init [])
  exact ⟨h3, fun k hk => (h2 k hk).2⟩

/-- Claim C5.  When the backend call inside `create_agent` fails, the whole
operation fails with that error, no record is added and `next_key` is
unchanged: the returned manager is exactly the argument manager. -/
theorem create_agent_atomic_on_backend_failure (m : AgentManager)
    (plugins : List Plugin) (backend : Backend) (task prompt model : String)
    (e : PyErr)
    (hbk : backend model (preInstructionPhase plugins [⟨"user", prompt⟩]) = Except.error e) :
    m.create_agent plugins backend task prompt model = (m, Except.error e) :=
  create_agent_err m plugins backend task prompt model e hbk

/-- Witness for C5: a concrete failing creation leaves the empty manager
untouched. -/
theorem create_agent_atomic_on_backend_failure_witness :
    (AgentManager.init []).create_agent [] (errBackend "rate limited") "t" "p" "mdl"
      = (AgentManager.init [], Except.error (PyErr.backendError "rate limited")) :=
  create_agent_atomic_on_backend_failure (AgentManager.init []) []
    (errBackend "rate limited") "t" "p" "mdl" (PyErr.backendError "rate limited") rfl

/-- Counterexample to claim C6 as stated: `delete_agent` can raise.  For a
string key that is not an integer literal, `int(key)` raises `ValueError`,
and only `KeyError` is caught, so the error propagates to the caller. -/
theorem delete_agent_nonnumeric_string_raises_value_error :
    (AgentManager.init []).delete_agent (PyKey.str "abc")
      = (AgentManager.init [], Except.error PyErr.valueError) :=
  rfl

/-- Claim C6 as amended.  For every key whose integer coercion succeeds (an
integer, or a string that parses as one), `delete_agent` deletes by the
integer-coerced key only, returns `true` exactly when that integer key was
present, returns `false` otherwise without raising, and a second delete with
the same key returns `false`. -/
theorem delete_agent_by_int_coercion_never_raises (m : AgentManager)
    (key : PyKey) (n : Int) (h : pyInt key = Except.ok n) :
    (m.delete_agent key).2 = Except.ok (dictContains m.agents (PyKey.int n))
    ∧ ((m.delete_agent key).1).agents
        = (if dictContains m.agents (PyKey.int n) then dictDel m.agents (PyKey.int n) else m.agents)
    ∧ (((m.delete_agent key).1).delete_agent key).2 = Except.ok false := by
  by_cases hc : dictContains m.agents (PyKey.int n)
  · have hdel : dictContains (dictDel m.agents (PyKey.int n)) (PyKey.int n) = false := by
      simp [dictContains, dictGet_dictDel_self]
    refine ⟨?_, ?_, ?_⟩ <;> simp [AgentManager.delete_agent, h, hc, hdel]
  · refine ⟨?_, ?_, ?_⟩ <;> simp [AgentManager.delete_agent, h, hc]

/-- Witness for C6 as amended: deleting the live integer key `7` through its
string form `"7"` returns `true`, removes the record, and a second delete
returns `false`. -/
theorem delete_agent_by_int_coercion_never_raises_witness :
    ((AgentManager.init [(PyKey.int 7, sampleAgent)]).delete_agent (PyKey.str "7")).2 = Except.ok true
    ∧ (((AgentManager.init [(PyKey.int 7, sampleAgent)]).delete_agent (PyKey.str "7")).1).agents
        = (if dictContains [(PyKey.int 7, sampleAgent)] (PyKey.int 7) then dictDel [(PyKey.int 7, sampleAgent)] (PyKey.int 7) else [(PyKey.int 7, sampleAgent)])
    ∧ ((((AgentManager.init [(PyKey.int 7, sampleAgent)]).delete_agent (PyKey.str "7")).1).delete_agent (PyKey.str "7")).2 = Except.ok false :=
  delete_agent_by_int_coercion_never_raises
    (AgentManager.init [(PyKey.int 7, sampleAgent)]) (PyKey.str "7") 7 rfl

/-- Counterexample to claim C2 as stated: with zero plugins and backend
reply `"Hi"`, the on-instruction aggregate equals its seed (the raw reply),
yet it is still appended, so the assistant reply appears twice in the stored
history. -/
theorem message_agent_aggregate_equal_seed_still_appended :
    onInstructionPhase [] [⟨"user", "q"⟩, ⟨"assistant", "Hi"⟩] "Hi" = "Hi"
    ∧ (((AgentManager.init [(PyKey.int 0, sampleAgent)]).message_agent [] (constBackend "Hi") (PyKey.int 0) "q").1).agents
        = [(PyKey.int 0, { task := "original", history := [⟨"user", "q"⟩, ⟨"assistant", "Hi"⟩, ⟨"assistant", "Hi"⟩], model := "m0" })] :=
  ⟨rfl, rfl⟩

/-- Claim C2 as amended.  On every successful `message_agent` call the
on-instruction aggregate is seeded with the raw backend reply, and the
aggregate is appended to the history as one more assistant message if and
only if it is non-empty — not if and only if it differs from the seed.  In
particular, when no plugin participates in the phase the aggregate equals
the seed, so a non-empty reply is appended a second time. -/
theorem message_agent_aggregate_appended_iff_nonempty (m : AgentManager)
    (plugins : List Plugin) (backend : Backend) (key : PyKey)
    (message : String) (ck : PyKey) (a : Agent) (reply : String)
    (hres : resolveAgent m.agents key = Except.ok (ck, a))
    (hbk : backend a.model (preInstructionPhase plugins (a.history ++ [⟨"user", message⟩])) = Except.ok reply) :
    (let base := preInstructionPhase plugins (a.history ++ [⟨"user", message⟩]) ++ [⟨"assistant", reply⟩]
     let agg := onInstructionPhase plugins base reply
     ((m.message_agent plugins backend key message).1).agents
       = dictSet m.agents ck { a with history := if agg = "" then base else base ++ [⟨"assistant", agg⟩] }
     ∧ ((∀ p ∈ plugins, p.can_handle_on_instruction = false) → agg = reply)) := by
  intro base agg
  rw [message_agent_ok m plugins backend key message ck a reply hres hbk]
  exact ⟨rfl, fun hskip => onInstructionAux_skip base plugins hskip 0 reply⟩

/-- Witness for C2 as amended, at the counterexample's input: zero plugins,
reply `"Hi"` — the aggregate equals the seed and the duplicate append
happens. -/
theorem message_agent_aggregate_appended_iff_nonempty_witness :
    (let base := preInstructionPhase [] (sampleAgent.history ++ [⟨"user", "q"⟩]) ++ [⟨"assistant", "Hi"⟩]
     let agg := onInstructionPhase [] base "Hi"
     (((AgentManager.init [(PyKey.int 0, sampleAgent)]).message_agent [] (constBackend "Hi") (PyKey.int 0) "q").1).agents
       = dictSet [(PyKey.int 0, sampleAgent)] (PyKey.int 0) { sampleAgent with history := if agg = "" then base else base ++ [⟨"assistant", agg⟩] }
     ∧ ((∀ p ∈ ([] : List Plugin), p.can_handle_on_instruction = false) → agg = "Hi")) :=
  message_agent_aggregate_appended_iff_nonempty
    (AgentManager.init [(PyKey.int 0, sampleAgent)]) [] (constBackend "Hi")
    (PyKey.int 0) "q" (PyKey.int 0) sampleAgent "Hi" rfl rfl

/-- Counterexample to claim C3 as stated: with a non-participating plugin at
position 0 and a single participating on-instruction plugin (returning
`"A"`) at position 1, `create_agent` stores the aggregate `"\nA"`, with a
leading newline — not `"A"`. -/
theorem create_agent_lone_second_plugin_gets_leading_newline :
    (((AgentManager.init []).create_agent [skipPlugin, onPlugin "A"] (constBackend "r") "t" "p" "mdl").1).agents
      = [(PyKey.int 0, { task := "t", history := [⟨"user", "p"⟩, ⟨"assistant", "r"⟩, ⟨"assistant", "\nA"⟩], model := "mdl" })]
    ∧ ("\nA" : String) ≠ "A" :=
  ⟨rfl, by decide⟩

/-- Claim C3 as amended.  Non-empty on-instruction contributions are
concatenated in plugin order, but a contribution is preceded by a newline
exactly when the contributing plugin's index in the full plugin list is
non-zero (`sep = "\n" if i else ""`), not when it is a second-or-later
contribution: two participating plugins at positions 0 and 1 returning `sA`
and `sB` yield `sA ++ "\n" ++ sB`, a single participating plugin at
position 0 yields `sA` with no leading separator, but a participating
plugin at position 1 behind a non-participating one yields `"\n" ++ sA`. -/
theorem onInstruction_separator_depends_on_plugin_index (msgs : List Message)
    (p q r : Plugin) (sA sB : String)
    (hp : p.can_handle_on_instruction = true) (hpa : p.on_instruction msgs = sA)
    (hA : sA ≠ "")
    (hq : q.can_handle_on_instruction = true) (hqb : q.on_instruction msgs = sB)
    (hB : sB ≠ "")
    (hr : r.can_handle_on_instruction = false) :
    onInstructionPhase [p, q] msgs "" = sA ++ "\n" ++ sB
    ∧ onInstructionPhase [p] msgs "" = sA
    ∧ onInstructionPhase [r, p] msgs "" = "\n" ++ sA := by
  refine ⟨?_, ?_, ?_⟩
  · simp [onInstructionPhase, onInstructionAux, hp, hpa, hA, hq, hqb, hB]
  · simp [onInstructionPhase, onInstructionAux, hp, hpa, hA]
  · simp [onInstructionPhase, onInstructionAux, hp, hpa, hA, hr]

/-- Witness for C3 as amended, with concrete plugins contributing `"A"` and
`"B"`. -/
theorem onInstruction_separator_depends_on_plugin_index_witness :
    onInstructionPhase [onPlugin "A", onPlugin "B"] [] "" = "A" ++ "\n" ++ "B"
    ∧ onInstructionPhase [onPlugin "A"] [] "" = "A"
    ∧ onInstructionPhase [skipPlugin, onPlugin "A"] [] "" = "\n" ++ "A" :=
  onInstruction_separator_depends_on_plugin_index [] (onPlugin "A") (onPlugin "B")
    skipPlugin "A" "B" rfl rfl (by decide) rfl rfl (by decide) rfl

/-- Claim C7.  After a successful `message_agent` call, the stored history
is the old history followed exactly by the user message, the messages the
pre-instruction phase appended, the assistant reply and, conditionally, one
assistant message carrying the on-phase aggregate; no prior message is
altered or removed and no other registry entry changes. -/
theorem message_agent_history_append_only (m : AgentManager)
    (plugins : List Plugin) (backend : Backend) (key : PyKey)
    (message : String) (ck : PyKey) (a : Agent) (reply : String)
    (hres : resolveAgent m.agents key = Except.ok (ck, a))
    (hbk : backend a.model (preInstructionPhase plugins (a.history ++ [⟨"user", message⟩])) = Except.ok reply) :
    ∃ preExtra onTail,
      preInstructionPhase plugins (a.history ++ [⟨"user", message⟩])
        = (a.history ++ [⟨"user", message⟩]) ++ preExtra
      ∧ (onTail = [] ∨ ∃ s : String, onTail = [⟨"assistant", s⟩])
      ∧ dictGet (((m.message_agent plugins backend key message).1)).agents ck
          = some { a with history := a.history ++ [⟨"user", message⟩] ++ preExtra ++ [⟨"assistant", reply⟩] ++ onTail }
      ∧ (∀ k', k' ≠ ck →
          dictGet (((m.message_agent plugins backend key message).1)).agents k' = dictGet m.agents k')
      ∧ (m.message_agent plugins backend key message).2 = Except.ok (postInstructionPhase plugins reply) := by
  obtain ⟨preExtra, hpre⟩ := preInstructionPhase_extends plugins (a.history ++ [⟨"user", message⟩])
  have hrun := message_agent_ok m plugins backend key message ck a reply hres hbk
  simp only [] at hrun
  by_cases hA : onInstructionPhase plugins (preInstructionPhase plugins (a.history ++ [⟨"user", message⟩]) ++ [⟨"assistant", reply⟩]) reply = ""
  · refine ⟨preExtra, [], hpre, Or.inl rfl, ?_, ?_, ?_⟩
    · rw [hrun]
      simp only [hA, if_pos, dictGet_dictSet_self, Option.some.injEq]
      rw [hpre]
      simp [List.append_assoc]
    · intro k' hk'
      rw [hrun]
      exact dictGet_dictSet_ne m.agents ck k' _ hk'
    · rw [hrun]
  · refine ⟨preExtra, [⟨"assistant", onInstructionPhase plugins (preInstructionPhase plugins (a.history ++ [⟨"user", message⟩]) ++ [⟨"assistant", reply⟩]) reply⟩], hpre, Or.inr ⟨_, rfl⟩, ?_, ?_, ?_⟩
    · rw [hrun]
      simp only [if_neg hA, dictGet_dictSet_self, Option.some.injEq]
      rw [hpre]
    · intro k' hk'
      rw [hrun]
      exact dictGet_dictSet_ne m.agents ck k' _ hk'
    · rw [hrun]

/-- Witness for C7: one concrete successful turn on a one-entry registry. -/
theorem message_agent_history_append_only_witness :
    ∃ preExtra onTail,
      preInstructionPhase [] (sampleAgent.history ++ [⟨"user", "q"⟩])
        = (sampleAgent.history ++ [⟨"user", "q"⟩]) ++ preExtra
      ∧ (onTail = [] ∨ ∃ s : String, onTail = [⟨"assistant", s⟩])
      ∧ dictGet ((((AgentManager.init [(PyKey.int 0, sampleAgent)]).message_agent [] (constBackend "Hi") (PyKey.int 0) "q").1)).agents (PyKey.int 0)
          = some { sampleAgent with history := sampleAgent.history ++ [⟨"user", "q"⟩] ++ preExtra ++ [⟨"assistant", "Hi"⟩] ++ onTail }
      ∧ (∀ k', k' ≠ PyKey.int 0 →
          dictGet ((((AgentManager.init [(PyKey.int 0, sampleAgent)]).message_agent [] (constBackend "Hi") (PyKey.int 0) "q").1)).agents k' = dictGet [(PyKey.int 0, sampleAgent)] k')
      ∧ ((AgentManager.init [(PyKey.int 0, sampleAgent)]).message_agent [] (constBackend "Hi") (PyKey.int 0) "q").2 = Except.ok (postInstructionPhase [] "Hi") :=
  message_agent_history_append_only (AgentManager.init [(PyKey.int 0, sampleAgent)])
    [] (constBackend "Hi") (PyKey.int 0) "q" (PyKey.int 0) sampleAgent "Hi" rfl rfl

/-- Claim C8.  On a registry holding the integer key `7` and no string key
`"7"`, the three-way resolution sends both `send_message("7", m)` and
`send_message(7, m)` to the same record: the string form misses the
registry, its integer coercion hits, so both calls resolve to the canonical
integer key `7`, produce identical results, and succeed when the backend
does. -/
theorem message_agent_string_and_int_key_same_record (m : AgentManager)
    (plugins : List Plugin) (backend : Backend) (message : String) (a : Agent)
    (reply : String)
    (h7 : dictGet m.agents (PyKey.int 7) = some a)
    (h7s : dictGet m.agents (PyKey.str "7") = none)
    (hbk : backend a.model (preInstructionPhase plugins (a.history ++ [⟨"user", message⟩])) = Except.ok reply) :
    resolveAgent m.agents (PyKey.str "7") = Except.ok (PyKey.int 7, a)
    ∧ resolveAgent m.agents (PyKey.int 7) = Except.ok (PyKey.int 7, a)
    ∧ m.message_agent plugins backend (PyKey.str "7") message
        = m.message_agent plugins backend (PyKey.int 7) message
    ∧ (m.message_agent plugins backend (PyKey.int 7) message).2
        = Except.ok (postInstructionPhase plugins reply) := by
  have hparse : pyInt (PyKey.str "7") = Except.ok 7 := rfl
  have hr1 : resolveAgent m.agents (PyKey.str "7") = Except.ok (PyKey.int 7, a) := by
    simp [resolveAgent, h7s, h7, hparse]
  have hr2 : resolveAgent m.agents (PyKey.int 7) = Except.ok (PyKey.int 7, a) := by
    simp [resolveAgent, h7]
  refine ⟨hr1, hr2, ?_, ?_⟩
  · simp only [AgentManager.message_agent, hr1, hr2]
  · rw [message_agent_ok m plugins backend (PyKey.int 7) message (PyKey.int 7) a reply hr2 hbk]

/-- Witness for C8 at a concrete one-entry registry. -/
theorem message_agent_string_and_int_key_same_record_witness :
    resolveAgent [(PyKey.int 7, sampleAgent)] (PyKey.str "7") = Except.ok (PyKey.int 7, sampleAgent)
    ∧ resolveAgent [(PyKey.int 7, sampleAgent)] (PyKey.int 7) = Except.ok (PyKey.int 7, sampleAgent)
    ∧ (AgentManager.init [(PyKey.int 7, sampleAgent)]).message_agent [] (constBackend "Hi") (PyKey.str "7") "q"
        = (AgentManager.init [(PyKey.int 7, sampleAgent)]).message_agent [] (constBackend "Hi") (PyKey.int 7) "q"
    ∧ ((AgentManager.init [(PyKey.int 7, sampleAgent)]).message_agent [] (constBackend "Hi") (PyKey.int 7) "q").2
        = Except.ok (postInstructionPhase [] "Hi") :=
  message_agent_string_and_int_key_same_record
    (AgentManager.init [(PyKey.int 7, sampleAgent)]) [] (constBackend "Hi")
    "q" sampleAgent "Hi" rfl rfl rfl

/-- Claim C9 (implicit).  `__init__` sets `next_key` to the number of
entries of the initial registry, not to one more than its largest key.
Consequently, starting from the one-entry registry `{5: sampleAgent}`
(where `next_key` becomes `1`), four successful creations issue keys `1..4`,
after which `next_key` is `5`, key `5` still holds the original record, and
the fifth creation returns the already-used key `5` and silently overwrites
that record. -/
theorem init_next_key_is_registry_size_and_can_overwrite :
    (∀ agents : List (PyKey × Agent), (AgentManager.init agents).next_key = (agents.length : Int))
    ∧ (let step := fun (mgr : AgentManager) => (mgr.create_agent [] (constBackend "Hi") "t" "p" "mdl").1
       let m4 := step (step (step (step (AgentManager.init [(PyKey.int 5, sampleAgent)]))))
       dictGet m4.agents (PyKey.int 5) = some sampleAgent
       ∧ m4.next_key = 5
       ∧ (m4.create_agent [] (constBackend "Hi") "t" "p" "mdl").2 = Except.ok (5, "Hi")
       ∧ dictGet (((m4.create_agent [] (constBackend "Hi") "t" "p" "mdl")).1).agents (PyKey.int 5)
           = some { task := "t", history := [⟨"user", "p"⟩, ⟨"assistant", "Hi"⟩], model := "mdl" }
       ∧ dictGet (((m4.create_agent [] (constBackend "Hi") "t" "p" "mdl")).1).agents (PyKey.int 5)
           ≠ some sampleAgent) := by
  refine ⟨fun agents => rfl, ?_⟩
  intro step m4
  exact ⟨rfl, rfl, rfl, rfl, by decide⟩

/-- Claim C10 (implicit).  `message_agent` is not atomic on failure: when
the backend call raises, the error is re-raised to the caller, but the user
message and the pre-instruction messages already appended to the aliased
history list remain in the registry — the session is not rolled back. -/
theorem message_agent_partial_mutation_on_backend_failure (m : AgentManager)
    (plugins : List Plugin) (backend : Backend) (key : PyKey)
    (message : String) (ck : PyKey) (a : Agent) (e : PyErr)
    (hres : resolveAgent m.agents key = Except.ok (ck, a))
    (hbk : backend a.model (preInstructionPhase plugins (a.history ++ [⟨"user", message⟩])) = Except.error e) :
    (m.message_agent plugins backend key message).2 = Except.error e
    ∧ ∃ preExtra,
        dictGet (((m.message_agent plugins backend key message).1)).agents ck
          = some { a with history := (a.history ++ [⟨"user", message⟩]) ++ preExtra } := by
  have hrun := message_agent_err m plugins backend key message ck a e hres hbk
  obtain ⟨preExtra, hpre⟩ := preInstructionPhase_extends plugins (a.history ++ [⟨"user", message⟩])
  refine ⟨by rw [hrun], ⟨preExtra, ?_⟩⟩
  rw [hrun]
  simp only [dictGet_dictSet_self, Option.some.injEq]
  rw [hpre]

/-- Witness for C10: a concrete failing turn keeps the user message in the
stored history while the backend error propagates. -/
theorem message_agent_partial_mutation_on_backend_failure_witness :
    ((AgentManager.init [(PyKey.int 0, sampleAgent)]).message_agent [] (errBackend "boom") (PyKey.int 0) "q").2
      = Except.error (PyErr.backendError "boom")
    ∧ ∃ preExtra,
        dictGet ((((AgentManager.init [(PyKey.int 0, sampleAgent)]).message_agent [] (errBackend "boom") (PyKey.int 0) "q").1)).agents (PyKey.int 0)
          = some { sampleAgent with history := (sampleAgent.history ++ [⟨"user", "q"⟩]) ++ preExtra } :=
  message_agent_partial_mutation_on_backend_failure
    (AgentManager.init [(PyKey.int 0, sampleAgent)]) [] (errBackend "boom")
    (PyKey.int 0) "q" (PyKey.int 0) sampleAgent (PyErr.backendError "boom") rfl rfl

end Godmode
